import Mathlib

/-!
# Fintrack bank-statement ingestion pipeline: a shallow embedding

This file embeds the statement-ingestion pipeline of the Fintrack
repository (`src/unnamed/part_006`, the consolidated `pdfService`
variant the specification was written against) into Lean 4 and proves
or refutes the frozen specification claims about it.

Modelling conventions:
* JavaScript strings are modelled as `List Char` (ASCII inputs);
  `String` is used at the outer API boundary.
* JavaScript numbers are modelled as `ℚ` (exact decimal arithmetic;
  every comparison performed by the code — sign tests, the
  1990–2030 year window on integers, equality with 0 — is unaffected
  by binary floating-point rounding on the decimal literals involved).
* `Date` values are modelled by their time value: milliseconds since
  the Unix epoch (`Int`), with the host's local time zone taken as
  UTC; `NaN` dates never arise on the modelled paths.
* The two regular expressions of the free-text extractor are embedded
  as explicit backtracking matchers with the exact greedy/alternation
  order of the JavaScript engine.
* `crypto.randomUUID()` is modelled by an explicit identifier supply
  `ids : Nat → String`, one identifier per emitted transaction.
-/

namespace Fintrack

/-! ## Character classes and basic string operations -/

def isDigitCh (c : Char) : Bool := 48 ≤ c.toNat && c.toNat ≤ 57

def isAlphaCh (c : Char) : Bool :=
  (97 ≤ c.toNat && c.toNat ≤ 122) || (65 ≤ c.toNat && c.toNat ≤ 90)

/-- JavaScript `\w` (word character): letters, digits, underscore. -/
def isWordCh (c : Char) : Bool := isAlphaCh c || isDigitCh c || c = '_'

/-- Whitespace as used by `String.prototype.trim` / `\s` (ASCII part). -/
def isSpaceCh (c : Char) : Bool :=
  c = ' ' || c = '\t' || c = '\n' || c = '\r' || c = '\x0b' || c = '\x0c'

def lowerCh (c : Char) : Char :=
  if 65 ≤ c.toNat && c.toNat ≤ 90 then Char.ofNat (c.toNat + 32) else c

def lowerList (cs : List Char) : List Char := cs.map lowerCh

/-- `String.prototype.trim`. -/
def trimList (cs : List Char) : List Char :=
  ((cs.dropWhile isSpaceCh).reverse.dropWhile isSpaceCh).reverse

/-- Does `needle` occur at the very start of `hay`? -/
def startsWithCh : List Char → List Char → Bool
  | _, [] => true
  | [], _ :: _ => false
  | h :: hs, n :: ns => h = n && startsWithCh hs ns

/-- `String.prototype.includes` (substring search). -/
def containsSub : List Char → List Char → Bool
  | hay, needle =>
    if startsWithCh hay needle then true
    else match hay with
      | [] => false
      | _ :: rest => containsSub rest needle

/-- `String.prototype.indexOf`: index of the first occurrence. -/
def indexOfSub : List Char → List Char → Option Nat
  | hay, needle =>
    if startsWithCh hay needle then some 0
    else match hay with
      | [] => none
      | _ :: rest => (indexOfSub rest needle).map (· + 1)

/-- `String.prototype.replace` with a plain-string pattern:
replace the first occurrence only. -/
def replaceFirstSub (hay needle repl : List Char) : List Char :=
  if needle = [] then repl ++ hay
  else if startsWithCh hay needle then repl ++ hay.drop needle.length
  else match hay with
    | [] => []
    | c :: rest => c :: replaceFirstSub rest needle repl

/-- `String.prototype.substring` with JavaScript clamp-and-swap rules. -/
def jsSubstring (cs : List Char) (a b : Int) : List Char :=
  let n : Int := cs.length
  let a' := (max 0 (min a n)).toNat
  let b' := (max 0 (min b n)).toNat
  let lo := min a' b'
  let hi := max a' b'
  (cs.take hi).drop lo

/-- `String.prototype.split` on a single-character class (the source
splits on dash, slash, dot and whitespace): cut at every separator,
keeping empty pieces. -/
def splitOnAny (seps : Char → Bool) : List Char → List (List Char)
  | [] => [[]]
  | c :: rest =>
    if seps c then [] :: splitOnAny seps rest
    else match splitOnAny seps rest with
      | [] => [[c]]
      | p :: ps => (c :: p) :: ps

/-- `Array.prototype.join` with a one-character separator. -/
def joinWith (sep : List Char) : List (List Char) → List Char
  | [] => []
  | [p] => p
  | p :: ps => p ++ sep ++ joinWith sep ps

/-! ## JavaScript numbers -/

def digitVal (c : Char) : Nat := c.toNat - '0'.toNat

def natOfDigits (cs : List Char) : Nat :=
  cs.foldl (fun acc c => acc * 10 + digitVal c) 0

/-- Unsigned part of `parseFloat`: leading digits `i₁…iₙ`, then an
optional `.` followed by digits `f₁…fₖ`; fails when no digit occurs at
all. The value `i₁…iₙ + f₁…fₖ / 10^k` is built with `Rat.divInt` over
a common denominator (the rational-arithmetic operations of the
library do not evaluate inside the kernel; `Rat.divInt` does). -/
def parseUnsigned? (cs : List Char) : Option ℚ :=
  let intDigits := cs.takeWhile isDigitCh
  let rest := cs.dropWhile isDigitCh
  let fracDigits := match rest with
    | '.' :: r => r.takeWhile isDigitCh
    | _ => []
  if intDigits = [] && fracDigits = [] then none
  else some (Rat.divInt
    (natOfDigits intDigits * 10 ^ fracDigits.length + natOfDigits fracDigits)
    (10 ^ fracDigits.length))

/-- Negation via `Rat.divInt` (kernel-evaluable). -/
def qNeg (q : ℚ) : ℚ := Rat.divInt (-q.num) q.den

/-- `q - k` for integer `k`, via `Rat.divInt` (kernel-evaluable). -/
def qSubInt (q : ℚ) (k : Int) : ℚ := Rat.divInt (q.num - k * q.den) q.den

/-- `q * k` for integer `k`, via `Rat.divInt` (kernel-evaluable). -/
def qMulInt (q : ℚ) (k : Int) : ℚ := Rat.divInt (q.num * k) q.den

/-- `parseFloat`: skip leading whitespace, optional sign, then an
unsigned decimal; `none` models `NaN`. (The `Infinity` and exponent
forms never occur on the digit-and-punctuation inputs this pipeline
feeds to it.) -/
def jsParseFloat? (cs : List Char) : Option ℚ :=
  match cs.dropWhile isSpaceCh with
  | '-' :: rest => (parseUnsigned? rest).map qNeg
  | '+' :: rest => parseUnsigned? rest
  | rest => parseUnsigned? rest

/-- `parseInt` (radix 10): skip whitespace, optional sign, leading
digit run; `none` models `NaN`. -/
def parseIntJs? (cs : List Char) : Option Int :=
  let go : List Char → Option Int := fun ds =>
    match ds.takeWhile isDigitCh with
    | [] => none
    | digs => some (natOfDigits digs : Int)
  match cs.dropWhile isSpaceCh with
  | '-' :: rest => (go rest).map (fun n => -n)
  | '+' :: rest => go rest
  | rest => go rest

/-! ## JavaScript values in spreadsheet cells -/

/-- A spreadsheet cell as seen by the extraction code: a string, a
number, or `undefined` (absent cell). -/
inductive JsVal where
  | str (s : String)
  | num (q : ℚ)
  | undefined
deriving DecidableEq

/-- JavaScript truthiness test used by `if (!val)` guards. -/
def JsVal.falsy : JsVal → Bool
  | .undefined => true
  | .num q => q = 0
  | .str s => s = ""

/-- Host `Number → String` conversion, exact on the decimal fractions
this pipeline produces; integers render without a decimal point. -/
def numToString (q : ℚ) : String :=
  if q.den = 1 then toString q.num
  else toString q.num ++ "/" ++ toString q.den

/-- `val.toString()` (with `?.` on `undefined` collapsing to `''`
at every use site in the source). -/
def JsVal.toStr : JsVal → String
  | .str s => s
  | .num q => numToString q
  | .undefined => ""

/-- `row[i]`: out-of-bounds access yields `undefined`. -/
def getJs (row : List JsVal) (i : Nat) : JsVal := (row.get? i).getD .undefined

/-- `parseAmount` (src/unnamed/part_006:347–355). -/
def parseAmount (val : JsVal) : ℚ :=
  match val with
  | .num q => q
  | .str s =>
    let clean := s.data.filter (fun c => isDigitCh c || c = '.' || c = '-')
    match jsParseFloat? clean with
    | some f => f
    | none => 0
  | .undefined => 0

/-! ## Dates

A `Date` is its ECMAScript time value: milliseconds since the Unix
epoch, with local time taken as UTC. -/

def msPerDay : Int := 86400000
def msPerHour : Int := 3600000

/-- Days since 1970-01-01 of the civil date `(y, m, d)`, `m ∈ 1..12`
(Howard Hinnant's `days_from_civil`). -/
def daysFromCivil (y m d : Int) : Int :=
  let y' := y - (if m ≤ 2 then 1 else 0)
  let era := y' / 400
  let yoe := y' - era * 400
  let doy := (153 * (m + (if 2 < m then -3 else 9)) + 2) / 5 + d - 1
  let doe := yoe * 365 + yoe / 4 - yoe / 100 + doy
  era * 146097 + doe - 719468

/-- Civil date `(y, m, d)` of a day count since 1970-01-01
(Howard Hinnant's `civil_from_days`). -/
def civilFromDays (z0 : Int) : Int × Int × Int :=
  let z := z0 + 719468
  let era := z / 146097
  let doe := z - era * 146097
  let yoe := (doe - doe / 1460 + doe / 36524 - doe / 146096) / 365
  let y := yoe + era * 400
  let doy := doe - (365 * yoe + yoe / 4 - yoe / 100)
  let mp := (5 * doy + 2) / 153
  let d := doy - (153 * mp + 2) / 5 + 1
  let m := mp + (if mp < 10 then 3 else -9)
  (y + (if m ≤ 2 then 1 else 0), m, d)

/-- `Date.prototype.getFullYear` (local = UTC). -/
def getFullYear (ms : Int) : Int := (civilFromDays (ms / msPerDay)).1

/-- `Date.prototype.getMonth`: 0-based month. -/
def getMonth (ms : Int) : Int := (civilFromDays (ms / msPerDay)).2.1 - 1

/-- `Date.prototype.getDate`: day of month. -/
def getDate (ms : Int) : Int := (civilFromDays (ms / msPerDay)).2.2

/-- `Date.prototype.getHours` (local = UTC). -/
def getHours (ms : Int) : Int := (ms / msPerHour) % 24

/-- `new Date(year, month, day)` — month is 0-based and may overflow
into neighbouring years; years 0–99 are shifted to 1900–1999 by the
constructor. Result: local (= UTC) midnight of that civil day. -/
def jsNewDateYMD (y m d : Int) : Int :=
  let y1 := if 0 ≤ y && y ≤ 99 then y + 1900 else y
  let yAdj := y1 + m / 12
  let mAdj := (m % 12) + 1
  (daysFromCivil yAdj mAdj 1 + (d - 1)) * msPerDay

/-- `Date.prototype.setHours(12)`: set the local hour to 12, keeping
minutes, seconds and milliseconds. -/
def setHours12 (ms : Int) : Int :=
  let t := ms % msPerDay
  ms - t + 12 * msPerHour + t % msPerHour

def isLeapYear (y : Int) : Bool := y % 4 = 0 && (y % 100 ≠ 0 || y % 400 = 0)

def daysInMonth (y m : Int) : Int :=
  if m = 2 then (if isLeapYear y then 29 else 28)
  else if m = 4 || m = 6 || m = 9 || m = 11 then 30
  else 31

/-- `getMonthIndex` (src/unnamed/part_006:405–408). -/
def getMonthIndex (mon : List Char) : Int :=
  let monthNames : List (List Char) :=
    [['j','a','n'], ['f','e','b'], ['m','a','r'], ['a','p','r'],
     ['m','a','y'], ['j','u','n'], ['j','u','l'], ['a','u','g'],
     ['s','e','p'], ['o','c','t'], ['n','o','v'], ['d','e','c']]
  let key := (lowerList mon).take 3
  match monthNames.indexOf? key with
  | some i => (i : Int)
  | none => -1

def isSepDateCh (c : Char) : Bool := c = '-' || c = '/' || c = '.'

/-- A 4-digit year taken literally, or a 2-digit year windowed the way
the engines' legacy parser does (0–49 to the 2000s, 50–99 to the
1900s). -/
def legacyYearOf (p : List Char) : Option Int :=
  if p.length = 4 && p.all isDigitCh then some (natOfDigits p)
  else if p.length = 2 && p.all isDigitCh then
    some (if natOfDigits p ≤ 49 then 2000 + (natOfDigits p : Int)
      else 1900 + (natOfDigits p : Int))
  else none

/-- Modelled from the spec: the ECMAScript built-in `new Date(string)`
parser is a host function, not code under src/. The model accepts the
forms the major engines agree on among the strings this pipeline
produces:
* ISO `YYYY-MM-DD` (4-2-2 digits, valid month and day) — UTC
  midnight;
* the legacy US numeric form `M sep D sep Y` (`sep` one of slash,
  dash, dot; month 1–12; day valid for that month; a 4-digit year, or
  a 2-digit year windowed by `legacyYearOf`) — local midnight; the
  built-in reads numeric dates month-first, so day-first tokens whose
  leading field exceeds 12 (such as `29/10/2024`) are rejected here
  and fall through to the manual parser, which is the day-first
  parser the spec describes;
* the month-name form `D sep MON sep Y` with a 3-letter month name —
  local midnight.
Every other string is an invalid date. Engines differ on further
fringe forms, so the theorems below about string dates are stated so
that their truth does not depend on exactly which further strings the
host accepts. -/
def jsDateFromString (s : String) : Option Int :=
  match s.data with
  | [y1, y2, y3, y4, '-', m1, m2, '-', d1, d2] =>
    if [y1, y2, y3, y4, m1, m2, d1, d2].all isDigitCh then
      let y : Int := natOfDigits [y1, y2, y3, y4]
      let m : Int := natOfDigits [m1, m2]
      let d : Int := natOfDigits [d1, d2]
      if 1 ≤ m && m ≤ 12 && 1 ≤ d && d ≤ daysInMonth y m then
        some (daysFromCivil y m d * msPerDay)
      else none
    else none
  | cs =>
    match splitOnAny isSepDateCh cs with
    | [p1, p2, p3] =>
      if p1 ≠ [] && p1.length ≤ 2 && p1.all isDigitCh &&
          p2 ≠ [] && p2.length ≤ 2 && p2.all isDigitCh then
        match legacyYearOf p3 with
        | some y =>
          let m : Int := natOfDigits p1
          let d : Int := natOfDigits p2
          if 1 ≤ m && m ≤ 12 && 1 ≤ d && d ≤ daysInMonth y m then
            some (daysFromCivil y m d * msPerDay)
          else none
        | none => none
      else if p1 ≠ [] && p1.length ≤ 2 && p1.all isDigitCh &&
          p2.length = 3 && p2.all isAlphaCh && 0 ≤ getMonthIndex p2 then
        match legacyYearOf p3 with
        | some y =>
          let m : Int := getMonthIndex p2 + 1
          let d : Int := natOfDigits p1
          if 1 ≤ d && d ≤ daysInMonth y m then
            some (daysFromCivil y m d * msPerDay)
          else none
        | none => none
      else none
    | _ => none

/-- Truncation toward zero of a rational, as `TimeClip` applies to a
fractional millisecond count. -/
def ratTrunc (q : ℚ) : Int := Int.tdiv q.num q.den

/-- `parseAnyDate` (src/unnamed/part_006:357–403). Numeric cells are
spreadsheet serial day counts (`25567 + 2` epoch correction); string
cells first go through the built-in `Date` parser and then through the
manual split-and-assemble path, which pins the result to hour 12. -/
def parseAnyDate (val : JsVal) : Option Int :=
  if val.falsy then none
  else match val with
    | .num q => some (ratTrunc (qMulInt (qMulInt (qSubInt q (25567 + 2)) 86400) 1000))
    | .str s =>
      let str := trimList (s.data.filter (fun c => c ≠ ','))
      match jsDateFromString (String.mk str) with
      | some d => some d
      | none =>
        let parts := splitOnAny
          (fun c => c = '-' || c = '/' || c = '.' || isSpaceCh c) str
        if 3 ≤ parts.length then
          let p0 := parts.getD 0 []
          let p1 := parts.getD 1 []
          let p2 := parts.getD 2 []
          let dmy : Option Int × Option Int × Option Int :=
            if p0.length = 4 then
              (parseIntJs? p2,
               (match parseIntJs? p1 with
                | some n => some (n - 1)
                | none => some (getMonthIndex p1)),
               parseIntJs? p0)
            else
              (parseIntJs? p0,
               (match parseIntJs? p1 with
                | some n => some (n - 1)
                | none => some (getMonthIndex p1)),
               if p2.length = 2 then (parseIntJs? p2).map (2000 + ·)
               else parseIntJs? p2)
          match dmy with
          | (some day, some month, some year) =>
            some (setHours12 (jsNewDateYMD year month day))
          | _ => none
        else none
    | .undefined => none

/-! ## Domain types (src/types.ts) -/

inductive TransactionType where
  | INCOME
  | EXPENSE
deriving DecidableEq

inductive Category where
  | FOOD | HOUSING | TRANSPORT | ENTERTAINMENT | SHOPPING | UTILITIES
  | HEALTH | SALARY | INVESTMENT | EMI | INSURANCE | CHARGES
  | TRANSFER | BILLS | FUEL | ATM | OTHER
deriving DecidableEq

inductive PaymentMethod where
  | UPI | CASH | ONLINE | CARD | ATM | NEFT | IMPS | RTGS | CHEQUE | OTHER
deriving DecidableEq

/-- A `Transaction` as produced by the pipeline. The `date` field is
the time value of the `Date` whose ISO rendering the source stores
(the rendering is injective, so the time value carries the same
information). -/
structure Transaction where
  id : String
  amount : ℚ
  description : String
  category : Category
  type : TransactionType
  paymentMethod : PaymentMethod
  date : Int
deriving DecidableEq

/-- A transaction before its fresh identifier is attached. -/
structure TxnData where
  amount : ℚ
  description : String
  category : Category
  type : TransactionType
  paymentMethod : PaymentMethod
  date : Int
deriving DecidableEq

def TxnData.toTransaction (d : TxnData) (idv : String) : Transaction :=
  { id := idv, amount := d.amount, description := d.description,
    category := d.category, type := d.type,
    paymentMethod := d.paymentMethod, date := d.date }

def stripId (t : Transaction) : TxnData :=
  { amount := t.amount, description := t.description,
    category := t.category, type := t.type,
    paymentMethod := t.paymentMethod, date := t.date }

/-- Attach one fresh identifier (`crypto.randomUUID()` model) to each
emitted transaction, in emission order. -/
def withIds (ids : Nat → String) : Nat → List TxnData → List Transaction
  | _, [] => []
  | n, d :: rest => d.toTransaction (ids n) :: withIds ids (n + 1) rest

/-! ## Classifiers (src/unnamed/part_006:419–455) -/

def containsStr (hay : List Char) (needle : String) : Bool :=
  containsSub hay needle.data

/-- `detectCategory` (src/unnamed/part_006:419–441). -/
def detectCategory (text : String) : Category :=
  let l := lowerList text.data
  if containsStr l "swiggy" || containsStr l "zomato" ||
     containsStr l "restaurant" || containsStr l "cafe" ||
     containsStr l "food" || containsStr l "domino" ||
     containsStr l "pizza" || containsStr l "burger" then .FOOD
  else if containsStr l "uber" || containsStr l "ola" ||
     containsStr l "rapido" || containsStr l "metro" ||
     containsStr l "rail" || containsStr l "train" ||
     containsStr l "bus" || containsStr l "toll" ||
     containsStr l "fastag" then .TRANSPORT
  else if containsStr l "petrol" || containsStr l "fuel" ||
     containsStr l "pump" || containsStr l "hpcl" ||
     containsStr l "bpcl" || containsStr l "ioc" then .FUEL
  else if containsStr l "netflix" || containsStr l "prime" ||
     containsStr l "hotstar" || containsStr l "spotify" ||
     containsStr l "movie" || containsStr l "cinema" ||
     containsStr l "pvr" || containsStr l "inox" ||
     containsStr l "subscription" then .ENTERTAINMENT
  else if containsStr l "rent" || containsStr l "maintenance" ||
     containsStr l "society" || containsStr l "broker" then .HOUSING
  else if containsStr l "jio" || containsStr l "airtel" ||
     containsStr l "vi " || containsStr l "bsnl" ||
     containsStr l "broadband" || containsStr l "wifi" ||
     containsStr l "fiber" then .BILLS
  else if containsStr l "electricity" || containsStr l "water" ||
     containsStr l "gas" || containsStr l "bescom" ||
     containsStr l "tata power" || containsStr l "adani" then .UTILITIES
  else if containsStr l "salary" || containsStr l "bonus" ||
     containsStr l "stipend" || containsStr l "credit interest" then .SALARY
  else if containsStr l "zerodha" || containsStr l "groww" ||
     containsStr l "upstox" || containsStr l "sip" ||
     containsStr l "mutual fund" || containsStr l "stock" then .INVESTMENT
  else if containsStr l "hospital" || containsStr l "pharmacy" ||
     containsStr l "doctor" || containsStr l "med" ||
     containsStr l "lab" || containsStr l "clinic" ||
     containsStr l "1mg" || containsStr l "apollo" then .HEALTH
  else if containsStr l "mart" || containsStr l "store" ||
     containsStr l "market" || containsStr l "amazon" ||
     containsStr l "flipkart" || containsStr l "myntra" ||
     containsStr l "shop" || containsStr l "retail" then .SHOPPING
  else if containsStr l "emi" || containsStr l "loan" then .EMI
  else if containsStr l "insurance" || containsStr l "lic" ||
     containsStr l "policy" || containsStr l "premium" then .INSURANCE
  else if containsStr l "atm" || containsStr l "cash wdl" then .ATM
  else if containsStr l "transfer" || containsStr l "trf" ||
     containsStr l "neft" || containsStr l "imps" ||
     containsStr l "rtgs" then .TRANSFER
  else if containsStr l "charge" || containsStr l "fee" ||
     containsStr l "penalty" then .CHARGES
  else .OTHER

/-- `detectPaymentMethod` (src/unnamed/part_006:443–455). -/
def detectPaymentMethod (text : String) : PaymentMethod :=
  let l := lowerList text.data
  if containsStr l "upi" || containsStr l "@" || containsStr l "gpay" ||
     containsStr l "phonepe" || containsStr l "paytm" ||
     containsStr l "bhim" then .UPI
  else if containsStr l "atm" || containsStr l "cash" ||
     containsStr l "wdl" then .CASH
  else if containsStr l "neft" then .NEFT
  else if containsStr l "imps" then .IMPS
  else if containsStr l "rtgs" then .RTGS
  else if containsStr l "chq" || containsStr l "cheque" ||
     containsStr l "clearing" then .CHEQUE
  else if containsStr l "pos" || containsStr l "card" ||
     containsStr l "visa" || containsStr l "mastercard" then .CARD
  else .ONLINE

/-! ## Description normalization (src/unnamed/part_006:410–417) -/

/-- The keyword alternation of the first `replace` in
`cleanDescription`, in source order. -/
def descKeywords : List (List Char) :=
  [['c','r'], ['d','r'], ['c','r','e','d','i','t'], ['d','e','b','i','t'],
   ['w','i','t','h','d','r','a','w','a','l'],
   ['d','e','p','o','s','i','t'], ['c','h','q'], ['n','o'],
   ['r','e','f'], ['t','x','n'], ['i','d']]

/-- Case-insensitive literal-word test at the head of `cs`: does one
of the keywords, word-boundary terminated, start here? Returns the
matched length. Alternatives are tried in source order. -/
def matchKeywordAt (cs : List Char) : Option Nat :=
  descKeywords.firstM (fun kw =>
    if startsWithCh (lowerList (cs.take kw.length)) kw then
      match cs.drop kw.length with
      | [] => some kw.length
      | c :: _ => if isWordCh c then none else some kw.length
    else none)

/-- Global replace of the word-boundary keyword alternation by the
empty string, tracking boundaries against the original text. -/
def removeKeywords : Nat → Bool → List Char → List Char
  | 0, _, _ => []
  | _ + 1, _, [] => []
  | fuel + 1, prevWord, c :: rest =>
    if !prevWord then
      match matchKeywordAt (c :: rest) with
      | some n =>
        removeKeywords fuel (isWordCh ((c :: rest).getD (n - 1) c))
          ((c :: rest).drop n)
      | none => c :: removeKeywords fuel (isWordCh c) rest
    else c :: removeKeywords fuel (isWordCh c) rest

/-- Global replace of decimal fragments (one or more digits, a dot,
one or more digits) by the empty string. -/
def removeFloats : Nat → List Char → List Char
  | 0, _ => []
  | _ + 1, [] => []
  | fuel + 1, c :: rest =>
    if isDigitCh c then
      let digs := (c :: rest).takeWhile isDigitCh
      match (c :: rest).drop digs.length with
      | '.' :: r =>
        match r.takeWhile isDigitCh with
        | [] => c :: removeFloats fuel rest
        | frac => removeFloats fuel (r.drop frac.length)
      | _ => c :: removeFloats fuel rest
    else c :: removeFloats fuel rest

/-- Collapse whitespace runs into single spaces. -/
def collapseSpaces : Nat → List Char → List Char
  | 0, _ => []
  | _ + 1, [] => []
  | fuel + 1, c :: rest =>
    if isSpaceCh c then
      ' ' :: collapseSpaces fuel (rest.dropWhile isSpaceCh)
    else c :: collapseSpaces fuel rest

def isAlnumCh (c : Char) : Bool := isAlphaCh c || isDigitCh c

/-- Trim leading and trailing non-alphanumeric runs. -/
def trimSymbols (cs : List Char) : List Char :=
  ((cs.dropWhile (fun c => !isAlnumCh c)).reverse.dropWhile
    (fun c => !isAlnumCh c)).reverse

/-- `cleanDescription` (src/unnamed/part_006:410–417). -/
def cleanDescription (desc : String) : String :=
  let s1 := removeKeywords (desc.data.length + 1) false desc.data
  let s2 := removeFloats (s1.length + 1) s1
  let s3 := collapseSpaces (s2.length + 1) s2
  let s4 := trimList (trimSymbols s3)
  if s4 = [] then "Transaction" else String.mk s4

/-! ## The amount regular expression

Source pattern (src/unnamed/part_006:246): word boundary, then either
a nonzero digit followed by up to two more digits and any number of
`,ddd` thousands groups, or a single `0`; then an optional `.d` or
`.dd` decimal part; then a word boundary. Matching follows the
JavaScript engine's greedy backtracking order. -/

/-- Trailing word-boundary test: the previous character of the match
is always a digit, so the boundary holds iff the next character is
absent or not a word character. -/
def boundaryAt : List Char → Bool
  | [] => true
  | c :: _ => !isWordCh c

/-- Optional decimal part `(?:\.\d{1,2})?` followed by the trailing
boundary; greedy: two digits, then one, then none. -/
def amtDecimals (cs : List Char) : Option (List Char) :=
  (match cs with
   | '.' :: a :: b :: r =>
     if isDigitCh a && isDigitCh b && boundaryAt r then some ['.', a, b]
     else none
   | _ => none) <|>
  (match cs with
   | '.' :: a :: r =>
     if isDigitCh a && boundaryAt r then some ['.', a] else none
   | _ => none) <|>
  (if boundaryAt cs then some [] else none)

/-- Thousands groups `(?:,\d{3})*`, greedy with backtracking, each
followed by the decimal/boundary tail. -/
def amtGroups : Nat → List Char → Option (List Char)
  | 0, _ => none
  | fuel + 1, cs =>
    (match cs with
     | ',' :: a :: b :: c :: r =>
       if isDigitCh a && isDigitCh b && isDigitCh c then
         (amtGroups fuel r).map (fun t => ',' :: a :: b :: c :: t)
       else none
     | _ => none) <|>
    amtDecimals cs

/-- Attempt the amount pattern at the head of `cs` (the caller has
already established the leading word boundary). Returns the matched
characters. -/
def matchAmountAt (cs : List Char) : Option (List Char) :=
  match cs with
  | c :: rest =>
    if 49 ≤ c.toNat && c.toNat ≤ 57 then
      -- `[1-9]\d{0,2}` greedy: two extra digits, then one, then none
      (match rest with
       | d1 :: d2 :: r2 =>
         if isDigitCh d1 && isDigitCh d2 then
           (amtGroups (r2.length + 1) r2).map (fun t => c :: d1 :: d2 :: t)
         else none
       | _ => none) <|>
      (match rest with
       | d1 :: r1 =>
         if isDigitCh d1 then
           (amtGroups (r1.length + 1) r1).map (fun t => c :: d1 :: t)
         else none
       | _ => none) <|>
      (amtGroups (rest.length + 1) rest).map (fun t => c :: t)
    else if c = '0' then
      (amtDecimals rest).map (fun t => '0' :: t)
    else none
  | [] => none

/-- One candidate produced by `matchAll` over the amount pattern:
match position, matched text, and the parsed value
`parseFloat(m[0].replace(thousands commas, ''))`. -/
structure Cand where
  idx : Nat
  str : List Char
  val : ℚ
deriving DecidableEq

def candVal (m : List Char) : ℚ :=
  (jsParseFloat? (m.filter (fun c => c ≠ ','))).getD 0

/-- `lineWithoutDate.matchAll(amountRegex)`: left-to-right scan,
non-overlapping, leading word boundary tracked against the original
text. -/
def scanAmounts : Nat → Bool → Nat → List Char → List Cand
  | 0, _, _, _ => []
  | _ + 1, _, _, [] => []
  | fuel + 1, prevWord, pos, c :: rest =>
    match (if prevWord then none else matchAmountAt (c :: rest)) with
    | some m =>
      { idx := pos, str := m, val := candVal m } ::
        scanAmounts fuel (isWordCh ((c :: rest).getD (m.length - 1) c))
          (pos + m.length) ((c :: rest).drop m.length)
    | none => scanAmounts fuel (isWordCh c) (pos + 1) rest

def lineAmounts (cs : List Char) : List Cand :=
  scanAmounts (cs.length + 1) false 0 cs

/-! ## The date regular expression

Source pattern (src/unnamed/part_006:243): word boundary, then either
`\d{1,2} sep (\d{1,2} | [A-Za-z]{3}) sep \d{2,4}` or
`\d{4} sep \d{1,2} sep \d{1,2}`, `sep` one of dash, slash, dot, then
a word boundary. -/

def isSepCh (c : Char) : Bool := c = '-' || c = '/' || c = '.'

/-- `\d{2,4}` greedy, then the trailing boundary. -/
def dateTail1 (pre : List Char) (cs : List Char) : Option (List Char) :=
  (match cs with
   | a :: b :: c :: d :: r =>
     if isDigitCh a && isDigitCh b && isDigitCh c && isDigitCh d &&
        boundaryAt r then some (pre ++ [a, b, c, d]) else none
   | _ => none) <|>
  (match cs with
   | a :: b :: c :: r =>
     if isDigitCh a && isDigitCh b && isDigitCh c && boundaryAt r then
       some (pre ++ [a, b, c]) else none
   | _ => none) <|>
  (match cs with
   | a :: b :: r =>
     if isDigitCh a && isDigitCh b && boundaryAt r then
       some (pre ++ [a, b]) else none
   | _ => none)

def dateSepTail1 (pre : List Char) (cs : List Char) : Option (List Char) :=
  match cs with
  | s :: r => if isSepCh s then dateTail1 (pre ++ [s]) r else none
  | [] => none

/-- Middle segment `(?:\d{1,2}|[A-Za-z]{3})` of the first branch,
then separator and year tail. -/
def dateMid1 (pre : List Char) (cs : List Char) : Option (List Char) :=
  (match cs with
   | a :: b :: r =>
     if isDigitCh a && isDigitCh b then dateSepTail1 (pre ++ [a, b]) r
     else none
   | _ => none) <|>
  (match cs with
   | a :: r => if isDigitCh a then dateSepTail1 (pre ++ [a]) r else none
   | _ => none) <|>
  (match cs with
   | a :: b :: c :: r =>
     if isAlphaCh a && isAlphaCh b && isAlphaCh c then
       dateSepTail1 (pre ++ [a, b, c]) r
     else none
   | _ => none)

def dateSepMid1 (pre : List Char) (cs : List Char) : Option (List Char) :=
  match cs with
  | s :: r => if isSepCh s then dateMid1 (pre ++ [s]) r else none
  | [] => none

/-- First branch: `\d{1,2}` greedy, then separator, middle, separator,
`\d{2,4}`. -/
def dateBranch1 (cs : List Char) : Option (List Char) :=
  (match cs with
   | a :: b :: r =>
     if isDigitCh a && isDigitCh b then dateSepMid1 [a, b] r else none
   | _ => none) <|>
  (match cs with
   | a :: r => if isDigitCh a then dateSepMid1 [a] r else none
   | _ => none)

/-- `\d{1,2}` greedy with the trailing boundary (last segment of the
second branch). -/
def dateLast2 (pre : List Char) (cs : List Char) : Option (List Char) :=
  (match cs with
   | a :: b :: r =>
     if isDigitCh a && isDigitCh b && boundaryAt r then
       some (pre ++ [a, b]) else none
   | _ => none) <|>
  (match cs with
   | a :: r =>
     if isDigitCh a && boundaryAt r then some (pre ++ [a]) else none
   | _ => none)

def dateSepLast2 (pre : List Char) (cs : List Char) : Option (List Char) :=
  match cs with
  | s :: r => if isSepCh s then dateLast2 (pre ++ [s]) r else none
  | [] => none

/-- Middle `\d{1,2}` of the second branch, then separator and last
segment. -/
def dateMid2 (pre : List Char) (cs : List Char) : Option (List Char) :=
  (match cs with
   | a :: b :: r =>
     if isDigitCh a && isDigitCh b then dateSepLast2 (pre ++ [a, b]) r
     else none
   | _ => none) <|>
  (match cs with
   | a :: r => if isDigitCh a then dateSepLast2 (pre ++ [a]) r else none
   | _ => none)

def dateSepMid2 (pre : List Char) (cs : List Char) : Option (List Char) :=
  match cs with
  | s :: r => if isSepCh s then dateMid2 (pre ++ [s]) r else none
  | [] => none

/-- Second branch: `\d{4}` then separator, `\d{1,2}`, separator,
`\d{1,2}`. -/
def dateBranch2 (cs : List Char) : Option (List Char) :=
  match cs with
  | a :: b :: c :: d :: r =>
    if isDigitCh a && isDigitCh b && isDigitCh c && isDigitCh d then
      dateSepMid2 [a, b, c, d] r
    else none
  | _ => none

def matchDateAt (cs : List Char) : Option (List Char) :=
  dateBranch1 cs <|> dateBranch2 cs

/-- `cleanLine.match(dateRegex)`: the leftmost match, scanning with
the leading word boundary tracked against the original text. -/
def scanDate : Nat → Bool → List Char → Option (List Char)
  | 0, _, _ => none
  | _ + 1, _, [] => none
  | fuel + 1, prevWord, c :: rest =>
    match (if prevWord then none else matchDateAt (c :: rest)) with
    | some m => some m
    | none => scanDate fuel (isWordCh c) rest

def firstDateMatch (cs : List Char) : Option (List Char) :=
  scanDate (cs.length + 1) false cs

/-! ## Free-text extractor (src/unnamed/part_006:237–343) -/

def isYear (v : ℚ) : Bool := 1990 ≤ v && v ≤ 2030

/-- Candidate filter of step 4: drop zero values and bare-integer
year look-alikes. -/
def candFilter (a : Cand) : Bool :=
  if a.val = 0 then false
  else if !a.str.contains '.' && isYear a.val then false
  else true

/-- The `chosenIndex` of step 4: index into the candidate list. -/
def chooseIdx (n : Nat) : Nat :=
  if n = 1 then 0
  else
    let ci : Int := (n : Int) - 2
    if ci < 0 then 0 else ci.toNat

/-- Direction inference of step 5 over the already-date-stripped line.
`amounts` is the full match list, `candidates` the filtered one. -/
def inferType (cleanLine lineWithoutDate : List Char)
    (amounts : List Cand) (chosenIndex : Nat)
    (selectedCandidateStr : List Char) : TransactionType :=
  let lowerLine := lowerList cleanLine
  if selectedCandidateStr ≠ [] && chosenIndex < amounts.length then
    let matchIndex : Int := match indexOfSub lineWithoutDate
      selectedCandidateStr with
      | some k => (k : Int)
      | none => -1
    let afterAmt := matchIndex + selectedCandidateStr.length
    let suffix := lowerList (jsSubstring lineWithoutDate afterAmt
      (afterAmt + 20))
    if containsStr suffix "dr" then .EXPENSE
    else if containsStr suffix "cr" then .INCOME
    else if containsStr lowerLine "credit" ||
        containsStr lowerLine "deposit" then .INCOME
    else if containsStr lowerLine "debit" ||
        containsStr lowerLine "withdrawal" then .EXPENSE
    else .EXPENSE
  else .EXPENSE

def dummyCand : Cand := { idx := 0, str := [], val := 0 }

/-- The date-stripped line of step 2
(`cleanLine.replace(dateMatch[0], ' ')`). -/
def strippedOf (raw : List Char) : List Char :=
  let cleanLine := trimList raw
  match firstDateMatch cleanLine with
  | some dateStr => replaceFirstSub cleanLine dateStr [' ']
  | none => cleanLine

/-- The full match list of step 3. -/
def amountsOf (raw : List Char) : List Cand := lineAmounts (strippedOf raw)

/-- The filtered candidate list of step 4. -/
def candidatesOf (raw : List Char) : List Cand :=
  (amountsOf raw).filter candFilter

/-- The candidate selected by step 4. -/
def chosenOf (raw : List Char) : Cand :=
  (candidatesOf raw).getD (chooseIdx (candidatesOf raw).length) dummyCand

/-- One loop iteration of `extractTransactionsFromText`: process a
single line; `none` means the line is skipped. -/
def processLine (raw : List Char) : Option TxnData :=
  let cleanLine := trimList raw
  if cleanLine = [] then none
  else match firstDateMatch cleanLine with
  | none => none
  | some dateStr =>
    match parseAnyDate (.str (String.mk dateStr)) with
    | none => none
    | some dateMs =>
      let lineWithoutDate := strippedOf raw
      let amounts := amountsOf raw
      if amounts = [] then none
      else
        let candidates := candidatesOf raw
        if candidates = [] then none
        else
          let chosenIndex := chooseIdx candidates.length
          let chosen := chosenOf raw
          let amount := chosen.val
          let selectedCandidateStr := chosen.str
          let ty := inferType cleanLine lineWithoutDate amounts
            chosenIndex selectedCandidateStr
          let description := cleanDescription (String.mk
            (candidates.foldl
              (fun d a => replaceFirstSub d a.str []) lineWithoutDate))
          some { amount := amount, description := description,
                 category := detectCategory description,
                 type := ty, paymentMethod := detectPaymentMethod description,
                 date := dateMs }

/-- `text.split(newline)`. -/
def splitLines (cs : List Char) : List (List Char) :=
  splitOnAny (fun c => c = '\n') cs

/-- `extractTransactionsFromText` (src/unnamed/part_006:237–343),
with the identifier supply made explicit. -/
def extractTransactionsFromText (text : String) (ids : Nat → String) :
    List Transaction :=
  withIds ids 0 ((splitLines text.data).filterMap processLine)

/-! ## Structured-row extractor (src/unnamed/part_006:147–234) -/

/-- Keep only lower-case letters and digits (the source's
normalization strips every other character). -/
def normAlnum (s : String) : List Char :=
  s.data.filter (fun c => ('a' ≤ c && c ≤ 'z') || isDigitCh c)

/-- `findIdx`: first header whose normalized text contains one of the
normalized keywords; `none` models index `-1`. -/
def findIdx (headers : List String) (keywords : List String) : Option Nat :=
  headers.findIdx? (fun h =>
    keywords.any (fun k => containsSub (normAlnum h) (normAlnum k)))

/-- The resolved column indices of `extractFromStructuredRows`. -/
structure ColIdx where
  date : Option Nat
  desc : Option Nat
  amt : Option Nat
  type : Option Nat
  debit : Option Nat
  credit : Option Nat

def mkIdx (headers : List String) : ColIdx :=
  { date := findIdx headers ["date", "txndate"],
    desc := findIdx headers ["narration", "description", "particulars",
      "remarks", "details", "txn description"],
    amt := findIdx headers ["amount", "amt", "txn amount"],
    type := findIdx headers ["type", "drcr", "dr/cr"],
    debit := findIdx headers ["withdrawal", "debit", "dr"],
    credit := findIdx headers ["deposit", "credit", "cr"] }

/-- `idx.debit !== -1 ? parseAmount(row[idx.debit]) : 0`. -/
def debitValOf (idx : ColIdx) (row : List JsVal) : ℚ :=
  match idx.debit with
  | some i => parseAmount (getJs row i)
  | none => 0

/-- `idx.credit !== -1 ? parseAmount(row[idx.credit]) : 0`. -/
def creditValOf (idx : ColIdx) (row : List JsVal) : ℚ :=
  match idx.credit with
  | some i => parseAmount (getJs row i)
  | none => 0

/-- The description cell, or the `'Transaction'` placeholder. -/
def descOf (idx : ColIdx) (row : List JsVal) : String :=
  match idx.desc with
  | some i => (getJs row i).toStr
  | none => "Transaction"

/-- Amount and direction resolution (logic 2A / 2B / 2C). -/
def rowAmountType (idx : ColIdx) (row : List JsVal) : ℚ × TransactionType :=
  if idx.debit.isSome || idx.credit.isSome then
    let debitVal := debitValOf idx row
    let creditVal := creditValOf idx row
    if 0 < debitVal then (debitVal, .EXPENSE)
    else if 0 < creditVal then (creditVal, .INCOME)
    else (0, .EXPENSE)
  else if idx.amt.isSome && idx.type.isSome then
    let amount := match idx.amt with
      | some i => parseAmount (getJs row i)
      | none => 0
    let typeStr := match idx.type with
      | some i => lowerList (getJs row i).toStr.data
      | none => []
    if containsStr typeStr "cr" || containsStr typeStr "income" ||
        containsStr typeStr "dep" then (amount, .INCOME)
    else (amount, .EXPENSE)
  else match idx.amt with
    | some i =>
      let rawAmt := getJs row i
      let amount := parseAmount rawAmt
      let ty := match rawAmt with
        | .str s =>
          if containsStr (lowerList s.data) "cr" then TransactionType.INCOME
          else if containsStr (lowerList s.data) "dr" then
            TransactionType.EXPENSE
          else TransactionType.EXPENSE
        | _ => TransactionType.EXPENSE
      (amount, ty)
    | none => (0, .EXPENSE)

/-- One `rows.forEach` iteration of `extractFromStructuredRows`:
`none` means the row contributed no transaction. -/
def processStructuredRow (idx : ColIdx) (row : List JsVal) :
    Option TxnData :=
  match idx.date with
  | none => none
  | some di =>
    let dateRaw := getJs row di
    if dateRaw.falsy then none
    else match parseAnyDate dateRaw with
    | none => none
    | some dateMs =>
      let (amount, ty) := rowAmountType idx row
      if 0 < amount then
        let desc := descOf idx row
        some { amount := amount, description := cleanDescription desc,
               category := detectCategory desc, type := ty,
               paymentMethod := detectPaymentMethod desc, date := dateMs }
      else none

/-- `extractFromStructuredRows` (src/unnamed/part_006:147–234), with
the identifier supply made explicit. -/
def extractFromStructuredRows (rows : List (List JsVal))
    (headers : List String) (ids : Nat → String) : List Transaction :=
  withIds ids 0 (rows.filterMap (processStructuredRow (mkIdx headers)))

/-! ## Spreadsheet orchestration (src/unnamed/part_006:87–144) -/

/-- Cell normalization for header scoring:
`c ? c.toString().toLowerCase().trim() : ''`. -/
def normCell (c : JsVal) : String :=
  if c.falsy then ""
  else String.mk (trimList (lowerList c.toStr.data))

def normRow (row : List JsVal) : List String := row.map normCell

/-- `scoreHeaderRow` (src/unnamed/part_006:131–144). -/
def scoreHeaderRow (row : List String) : ℚ :=
  let joined := joinWith [' '] (row.map String.data)
  Rat.divInt
    ((if row.contains "date" || row.contains "txn date" ||
        containsStr joined "value date" then 2 else 0) +
     (if containsStr joined "description" || containsStr joined "narration" ||
        containsStr joined "particulars" || containsStr joined "remarks"
      then 2 else 0) +
     (if containsStr joined "debit" || containsStr joined "withdrawal" ||
        containsStr joined "dr" then 2 else 0) +
     (if containsStr joined "credit" || containsStr joined "deposit" ||
        containsStr joined "cr" then 2 else 0) +
     (if containsStr joined "balance" || containsStr joined "bal"
      then 1 else 0) +
     (if row.contains "amount" || row.contains "amt" ||
        row.contains "withdrawal amt." || row.contains "deposit amt."
      then 2 else 0)) 2

/-- Header score of a raw row, after cell normalization. -/
def rowScore (row : List JsVal) : ℚ := scoreHeaderRow (normRow row)

/-- The running `bestScore` of the header-detection loop: 0 while no
header row has been retained. -/
def accBest : Option (Nat × List String × ℚ) → ℚ
  | none => 0
  | some (_, _, b) => b

/-- The header-detection loop (src/unnamed/part_006:102–116): scan
while `i < 100`, retaining the current row when its score strictly
exceeds the best retained score and reaches the threshold 2.
The accumulator holds `(headerRowIndex, headers, bestScore)`. -/
def detectHeaderAux :
    Nat → List (List JsVal) → Option (Nat × List String × ℚ) →
    Option (Nat × List String × ℚ)
  | _, [], acc => acc
  | i, row :: rest, acc =>
    if i < 100 then
      let r := normRow row
      let score := scoreHeaderRow r
      let bestScore := accBest acc
      detectHeaderAux (i + 1) rest
        (if bestScore < score && 2 ≤ score then some (i, r, score) else acc)
    else acc

def detectHeader (rows : List (List JsVal)) :
    Option (Nat × List String × ℚ) :=
  detectHeaderAux 0 rows none

/-- `row.join(' ')` with JavaScript's element-to-string conversion. -/
def joinRow (row : List JsVal) : List Char :=
  joinWith [' '] (row.map (fun c => c.toStr.data))

/-- The free-text fallback input: non-empty rows joined by spaces and
newlines (src/unnamed/part_006:123–126). -/
def joinRows (rows : List (List JsVal)) : String :=
  String.mk (joinWith ['\n'] ((rows.filter (fun r => r ≠ [])).map joinRow))

/-- `parseSpreadsheet` (src/unnamed/part_006:87–129), from the
row-of-cells level down (workbook decoding is host I/O). -/
def parseSpreadsheetRows (rows : List (List JsVal)) (ids : Nat → String) :
    List Transaction :=
  match detectHeader rows with
  | some (headerRowIndex, headers, _) =>
    extractFromStructuredRows (rows.drop (headerRowIndex + 1)) headers ids
  | none => extractTransactionsFromText (joinRows rows) ids

/-! ## Helper lemmas -/

theorem toTransaction_amount (d : TxnData) (s : String) :
    (d.toTransaction s).amount = d.amount := rfl

theorem stripId_toTransaction (d : TxnData) (s : String) :
    stripId (d.toTransaction s) = d := rfl

theorem mem_withIds {ids : Nat → String} :
    ∀ {n : Nat} {l : List TxnData} {t : Transaction},
      t ∈ withIds ids n l → ∃ d ∈ l, ∃ k, t = d.toTransaction (ids k) := by
  intro n l
  induction l generalizing n with
  | nil => intro t h; simp [withIds] at h
  | cons d rest ih =>
    intro t h
    rw [withIds] at h
    rcases List.mem_cons.mp h with h | h
    · exact ⟨d, List.mem_cons_self d rest, n, h⟩
    · obtain ⟨d', hd', k, hk⟩ := ih h
      exact ⟨d', List.mem_cons_of_mem d hd', k, hk⟩

theorem map_stripId_withIds (ids : Nat → String) :
    ∀ (n : Nat) (l : List TxnData),
      (withIds ids n l).map stripId = l := by
  intro n l
  induction l generalizing n with
  | nil => rfl
  | cons d rest ih => rw [withIds]; simp [stripId_toTransaction, ih]

theorem processStructuredRow_amount_pos {idx : ColIdx} {row : List JsVal}
    {d : TxnData} (h : processStructuredRow idx row = some d) :
    0 < d.amount := by
  simp only [processStructuredRow] at h
  repeat' split at h
  all_goals
    first
      | exact Option.noConfusion h
      | (cases h; simp only []; assumption)

theorem chooseIdx_lt {n : Nat} (h : n ≠ 0) : chooseIdx n < n := by
  simp only [chooseIdx]
  split
  · omega
  · split <;> omega

theorem chosenOf_mem {raw : List Char} (h : candidatesOf raw ≠ []) :
    chosenOf raw ∈ candidatesOf raw := by
  unfold chosenOf
  rw [List.getD_eq_getElem?_getD]
  have hlt : chooseIdx (candidatesOf raw).length < (candidatesOf raw).length :=
    chooseIdx_lt (by
      have := List.length_pos.mpr h
      omega)
  rw [List.getElem?_eq_getElem hlt]
  exact List.getElem_mem hlt

theorem processLine_some {raw : List Char} {d : TxnData}
    (h : processLine raw = some d) :
    candidatesOf raw ≠ [] ∧ d.amount = (chosenOf raw).val := by
  simp only [processLine] at h
  repeat' split at h
  all_goals
    first
      | exact Option.noConfusion h
      | (cases h; exact ⟨by assumption, rfl⟩)

theorem scanAmounts_image :
    ∀ (fuel : Nat) (b : Bool) (pos : Nat) (cs : List Char) (c : Cand),
      c ∈ scanAmounts fuel b pos cs →
      ∃ s m, matchAmountAt s = some m ∧ c.str = m ∧ c.val = candVal m := by
  intro fuel
  induction fuel with
  | zero => intro b pos cs c h; simp [scanAmounts] at h
  | succ fuel ih =>
    intro b pos cs c h
    cases cs with
    | nil => simp [scanAmounts] at h
    | cons x rest =>
      rw [scanAmounts] at h
      split at h
      · next m heq =>
        rcases List.mem_cons.mp h with h | h
        · subst h
          split at heq
          · exact Option.noConfusion heq
          · exact ⟨x :: rest, m, heq, rfl, rfl⟩
        · exact ih _ _ _ _ h
      · exact ih _ _ _ _ h

theorem matchAmountAt_head {cs m : List Char}
    (h : matchAmountAt cs = some m) :
    ∃ d rest, m = d :: rest ∧ isDigitCh d = true := by
  cases cs with
  | nil => simp [matchAmountAt] at h
  | cons c crest =>
    simp only [matchAmountAt] at h
    split at h
    · next hd =>
      have hdig : isDigitCh c = true := by
        simp only [Bool.and_eq_true, decide_eq_true_eq] at hd
        simp only [isDigitCh, Bool.and_eq_true, decide_eq_true_eq]
        omega
      rcases (Option.orElse_eq_some _ _ _).mp h with h1 | ⟨_, h1⟩
      · split at h1
        · split at h1
          · rcases Option.map_eq_some'.mp h1 with ⟨t, _, ht⟩
            exact ⟨c, _, ht.symm, hdig⟩
          · exact Option.noConfusion h1
        · exact Option.noConfusion h1
      · rcases (Option.orElse_eq_some _ _ _).mp h1 with h2 | ⟨_, h2⟩
        · split at h2
          · split at h2
            · rcases Option.map_eq_some'.mp h2 with ⟨t, _, ht⟩
              exact ⟨c, _, ht.symm, hdig⟩
            · exact Option.noConfusion h2
          · exact Option.noConfusion h2
        · rcases Option.map_eq_some'.mp h2 with ⟨t, _, ht⟩
          exact ⟨c, _, ht.symm, hdig⟩
    · split at h
      · rcases Option.map_eq_some'.mp h with ⟨t, _, ht⟩
        exact ⟨'0', _, ht.symm, by decide⟩
      · exact Option.noConfusion h

theorem parseUnsigned?_nonneg {cs : List Char} {q : ℚ}
    (h : parseUnsigned? cs = some q) : 0 ≤ q := by
  simp only [parseUnsigned?] at h
  split at h
  · exact Option.noConfusion h
  · cases h
    exact Rat.divInt_nonneg (by positivity) (by positivity)

theorem candVal_nonneg {m : List Char} {d : Char} {rest : List Char}
    (hm : m = d :: rest) (hd : isDigitCh d = true) : 0 ≤ candVal m := by
  subst hm
  have hd' : 48 ≤ d.toNat ∧ d.toNat ≤ 57 := by
    simpa [isDigitCh] using hd
  have hcomma : d ≠ ',' := fun hc => by subst hc; revert hd'; decide
  have hminus : d ≠ '-' := fun hc => by subst hc; revert hd'; decide
  have hplus : d ≠ '+' := fun hc => by subst hc; revert hd'; decide
  have hsp : isSpaceCh d = false := by
    by_contra hsp
    rw [Bool.not_eq_false] at hsp
    simp only [isSpaceCh, Bool.or_eq_true, decide_eq_true_eq] at hsp
    rcases hsp with ((((h | h) | h) | h) | h) | h <;>
      (subst h; revert hd'; decide)
  unfold candVal
  have hfilter : (d :: rest).filter (fun c => c ≠ ',') =
      d :: rest.filter (fun c => c ≠ ',') := by
    simp [List.filter_cons, hcomma]
  rw [hfilter]
  unfold jsParseFloat?
  rw [List.dropWhile_cons, if_neg (by simp [hsp])]
  split
  · next heq =>
    injection heq with h1 _
    exact absurd h1 hminus
  · next heq =>
    injection heq with h1 _
    exact absurd h1 hplus
  · rcases hpu : parseUnsigned? (d :: rest.filter (fun c => c ≠ ',')) with
      _ | q
    · simp
    · simpa using parseUnsigned?_nonneg hpu

theorem candidatesOf_pos {raw : List Char} {c : Cand}
    (hc : c ∈ candidatesOf raw) : 0 < c.val := by
  unfold candidatesOf at hc
  have hmem := (List.mem_filter.mp hc).1
  have hfil := (List.mem_filter.mp hc).2
  have hne : c.val ≠ 0 := by
    intro h0
    simp only [candFilter] at hfil
    rw [if_pos h0] at hfil
    exact Bool.noConfusion hfil
  obtain ⟨s, m, hmatch, hstr, hval⟩ :=
    scanAmounts_image _ _ _ _ _ hmem
  obtain ⟨d, rest, hm, hd⟩ := matchAmountAt_head hmatch
  have := candVal_nonneg hm hd
  rw [← hval] at this
  exact lt_of_le_of_ne this (Ne.symm hne)

/-! ## Concrete fixtures used by witnesses and counterexamples -/

def ids0 : Nat → String := fun _ => "id-0"

def dummyTxn : Transaction :=
  { id := "", amount := 0, description := "", category := .OTHER,
    type := .EXPENSE, paymentMethod := .ONLINE, date := 0 }

/-- Headers of a typical split-column statement, as normalized by the
header-detection loop. -/
def hdrs0 : List String :=
  ["date", "narration", "withdrawal amt.", "deposit amt."]

def rowDebit0 : List JsVal :=
  [.str "29/10/2024", .str "UPI payment", .str "2500.00", .str "0"]

def rowCredit0 : List JsVal :=
  [.str "29/10/2024", .str "Salary", .str "0", .str "50000"]

/-! ## Claim theorems -/

/-- C1: every transaction emitted by either extraction path — the
structured-row extractor or the free-text extractor — has a strictly
positive `amount`; zero or negative candidates are rejected before a
transaction is emitted. -/
theorem C1_amounts_always_positive :
    (∀ rows headers ids t,
        t ∈ extractFromStructuredRows rows headers ids → 0 < t.amount) ∧
    (∀ text ids t,
        t ∈ extractTransactionsFromText text ids → 0 < t.amount) := by
  constructor
  · intro rows headers ids t ht
    obtain ⟨d, hd, k, hk⟩ := mem_withIds ht
    obtain ⟨row, _, hrow⟩ := List.mem_filterMap.mp hd
    subst hk
    rw [toTransaction_amount]
    exact processStructuredRow_amount_pos hrow
  · intro text ids t ht
    obtain ⟨d, hd, k, hk⟩ := mem_withIds ht
    obtain ⟨raw, _, hraw⟩ := List.mem_filterMap.mp hd
    subst hk
    rw [toTransaction_amount]
    obtain ⟨hne, hamt⟩ := processLine_some hraw
    rw [hamt]
    exact candidatesOf_pos (chosenOf_mem hne)

/-- Witness for C1 at a concrete debit row. -/
theorem C1_amounts_always_positive_witness :
    ((extractFromStructuredRows [rowDebit0] hdrs0 ids0).getD 0 dummyTxn ∈
      extractFromStructuredRows [rowDebit0] hdrs0 ids0) ∧
    0 < ((extractFromStructuredRows [rowDebit0] hdrs0 ids0).getD 0
      dummyTxn).amount :=
  ⟨by decide, C1_amounts_always_positive.1 [rowDebit0] hdrs0 ids0 _
    (by decide)⟩

/-- C10: extraction is deterministic modulo identifiers — two runs on
the same input (same rows, same text) with different identifier
supplies produce transaction lists that are equal value-by-value and
order-by-order once the freshly generated `id` fields are stripped. -/
theorem C10_deterministic_modulo_ids :
    (∀ rows ids ids',
      (parseSpreadsheetRows rows ids).map stripId =
        (parseSpreadsheetRows rows ids').map stripId) ∧
    (∀ text ids ids',
      (extractTransactionsFromText text ids).map stripId =
        (extractTransactionsFromText text ids').map stripId) := by
  constructor
  · intro rows ids ids'
    unfold parseSpreadsheetRows
    cases detectHeader rows with
    | none =>
      unfold extractTransactionsFromText
      rw [map_stripId_withIds, map_stripId_withIds]
    | some trip =>
      obtain ⟨i, hs, sc⟩ := trip
      unfold extractFromStructuredRows
      rw [map_stripId_withIds, map_stripId_withIds]
  · intro text ids ids'
    unfold extractTransactionsFromText
    rw [map_stripId_withIds, map_stripId_withIds]

/-- `setHours(12)` always lands on local hour 12. -/
theorem getHours_setHours12 (ms : Int) : getHours (setHours12 ms) = 12 := by
  simp only [getHours, setHours12, msPerDay, msPerHour]
  omega

/-- C8: date-parsing reference round-trips — `"29/10/2024"` resolves
to day 29, month index 9 (October), year 2024; the spreadsheet serial
day count `45000` resolves (via the 1900-system epoch `25567 + 2`) to
a date in 2023; the 2-digit year in `"29/10/24"` is windowed to
2024. -/
theorem C8_date_roundtrips :
    (parseAnyDate (.str "29/10/2024")).map
        (fun ms => (getFullYear ms, getMonth ms, getDate ms)) =
      some (2024, 9, 29) ∧
    (parseAnyDate (.num 45000)).map getFullYear = some 2023 ∧
    (parseAnyDate (.str "29/10/24")).map getFullYear = some 2024 :=
  ⟨by decide, by decide, by decide⟩

/-- C7 counterexample: a date resolved from a numeric spreadsheet
serial day count is NOT pinned to midday — `parseAnyDate 45000` lands
on hour 0, refuting "every date resolved by the shared date-token
parser is pinned to hour 12". -/
theorem C7_counterexample :
    (parseAnyDate (.num 45000)).map getHours = some 0 ∧
    (some (0 : Int) ≠ some (12 : Int)) :=
  ⟨by decide, by decide⟩

theorem qMulInt_intCast (a k : Int) :
    qMulInt ((a : Int) : ℚ) k = ((a * k : Int) : ℚ) := by
  unfold qMulInt
  rw [Rat.num_intCast, Rat.den_intCast, Nat.cast_one]
  exact Rat.divInt_one _

theorem ratTrunc_intCast (a : Int) : ratTrunc ((a : Int) : ℚ) = a := by
  unfold ratTrunc
  rw [Rat.num_intCast, Rat.den_intCast, Nat.cast_one]
  exact Int.tdiv_one a

/-- A whole-day spreadsheet serial (an integer-valued numeric cell)
resolves to local midnight, hour 0 — never midday. -/
theorem parseAnyDate_wholeDay_serial_hour (q : ℚ) (hden : q.den = 1)
    (hq : ¬q = 0) : (parseAnyDate (.num q)).map getHours = some 0 := by
  have hfalsy : (JsVal.num q).falsy = false := by
    simp [JsVal.falsy, hq]
  have hsub : qSubInt q (25567 + 2) = ((q.num - 25569 : Int) : ℚ) := by
    unfold qSubInt
    rw [hden, Nat.cast_one, mul_one]
    exact Rat.divInt_one _
  simp only [parseAnyDate, hfalsy, Bool.false_eq_true, if_false, hsub,
    qMulInt_intCast, ratTrunc_intCast, Option.map_some']
  congr 1
  simp only [getHours, msPerHour]
  omega

/-- C7 (amended): only the manual split-and-assemble string path of
`parseAnyDate` pins dates to midday. Every string-resolved date is
either the built-in host parser's result, used as-is without
re-pinning, or the manual-path result, which is always pinned to
hour 12; and a numeric whole-day serial count resolves to local
midnight (hour 0), never midday. (The first part is stated as a
disjunction so that it holds no matter which strings the host's
built-in parser accepts.) -/
theorem C7_amended_midday_pinning :
    (∀ (s : String) (ms : Int), parseAnyDate (.str s) = some ms →
      jsDateFromString
        (String.mk (trimList (s.data.filter (fun c => c ≠ ',')))) =
          some ms ∨
      getHours ms = 12) ∧
    (∀ q : ℚ, q.den = 1 → ¬q = 0 →
      (parseAnyDate (.num q)).map getHours = some 0) := by
  constructor
  · intro s ms hp
    simp only [parseAnyDate] at hp
    split at hp
    · exact Option.noConfusion hp
    · split at hp
      · next heq =>
        cases hp
        exact Or.inl heq
      · split at hp
        · split at hp
          · cases hp
            exact Or.inr (getHours_setHours12 _)
          · exact Option.noConfusion hp
        · exact Option.noConfusion hp
  · exact parseAnyDate_wholeDay_serial_hour

/-- Witness for C7 (amended): `"29/10/2024"` (rejected by the
built-in, so manually parsed and pinned to hour 12), `"01-Jan-2024"`
(accepted by the built-in and used as-is, at midnight), and the
whole-day serial 45000 (hour 0). -/
theorem C7_amended_midday_pinning_witness :
    (jsDateFromString
        (String.mk (trimList ("29/10/2024".data.filter (fun c => c ≠ ',')))) =
          some ((parseAnyDate (.str "29/10/2024")).getD 0) ∨
      getHours ((parseAnyDate (.str "29/10/2024")).getD 0) = 12) ∧
    getHours ((parseAnyDate (.str "29/10/2024")).getD 0) = 12 ∧
    (jsDateFromString
        (String.mk (trimList ("01-Jan-2024".data.filter (fun c => c ≠ ',')))) =
          some ((parseAnyDate (.str "01-Jan-2024")).getD 0) ∨
      getHours ((parseAnyDate (.str "01-Jan-2024")).getD 0) = 12) ∧
    getHours ((parseAnyDate (.str "01-Jan-2024")).getD 0) = 0 ∧
    (parseAnyDate (.num 45000)).map getHours = some 0 :=
  ⟨C7_amended_midday_pinning.1 "29/10/2024"
      ((parseAnyDate (.str "29/10/2024")).getD 0) (by decide),
   by decide,
   C7_amended_midday_pinning.1 "01-Jan-2024"
      ((parseAnyDate (.str "01-Jan-2024")).getD 0) (by decide),
   by decide,
   C7_amended_midday_pinning.2 45000 (by decide) (by decide)⟩

def dummyData : TxnData :=
  { amount := 0, description := "", category := .OTHER, type := .EXPENSE,
    paymentMethod := .ONLINE, date := 0 }

/-- A line whose date-stripped remainder holds three surviving amount
candidates. -/
def c2line : String := "29/10/2024 100.50 200.50 300.50 withdrawal"

/-- C2 counterexample: with three candidates remaining after the
year/zero filter, the extractor takes the SECOND-TO-LAST candidate
(200.50), not the first (100.50) as the claim states; no
serial/reference dropping takes place. -/
theorem C2_counterexample :
    (candidatesOf c2line.data).map (fun c => c.val) =
      [Rat.divInt 201 2, Rat.divInt 401 2, Rat.divInt 601 2] ∧
    (extractTransactionsFromText c2line ids0).map (fun t => t.amount) =
      [Rat.divInt 401 2] ∧
    Rat.divInt 401 2 ≠ Rat.divInt 201 2 :=
  ⟨by decide, by decide, by decide⟩

/-- C2 (amended): after the date substring is removed and zero-valued
and year-like integer candidates are dropped (no serial/reference
dropping exists in this extractor), a single remaining candidate is
the transaction amount, and with two or more remaining the amount is
the SECOND-TO-LAST candidate — which for exactly two candidates is
the first, the last being the running balance. -/
theorem C2_amended_amount_selection :
    ∀ raw d, processLine raw = some d →
      candidatesOf raw ≠ [] ∧
      ((candidatesOf raw).length = 1 →
        d.amount = ((candidatesOf raw).getD 0 dummyCand).val) ∧
      (2 ≤ (candidatesOf raw).length →
        d.amount = ((candidatesOf raw).getD
          ((candidatesOf raw).length - 2) dummyCand).val) := by
  intro raw d h
  obtain ⟨hne, hamt⟩ := processLine_some h
  refine ⟨hne, ?_, ?_⟩
  · intro h1
    rw [hamt]
    unfold chosenOf
    rw [show chooseIdx (candidatesOf raw).length = 0 by
      simp [chooseIdx, h1]]
  · intro h2
    rw [hamt]
    unfold chosenOf
    rw [show chooseIdx (candidatesOf raw).length =
        (candidatesOf raw).length - 2 by
      simp only [chooseIdx]
      split
      · omega
      · split <;> omega]

/-- A line with a date, exactly two numeric tokens (amount then
balance) and the word `withdrawal`. -/
def c2wline : String := "29/10/2024 500.00 1,250.00 withdrawal"

/-- Witness for C2 (amended): on `c2wline` two candidates remain, the
selected amount is the first token `500.00`, and exactly one EXPENSE
transaction is produced. -/
theorem C2_amended_amount_selection_witness :
    processLine c2wline.data =
      some ((processLine c2wline.data).getD dummyData) ∧
    (candidatesOf c2wline.data).length = 2 ∧
    ((processLine c2wline.data).getD dummyData).amount =
      ((candidatesOf c2wline.data).getD
        ((candidatesOf c2wline.data).length - 2) dummyCand).val ∧
    ((candidatesOf c2wline.data).getD 0 dummyCand).val = 500 ∧
    (extractTransactionsFromText c2wline ids0).map
      (fun t => (t.amount, t.type)) = [(500, .EXPENSE)] :=
  ⟨by decide, by decide,
    (C2_amended_amount_selection c2wline.data
      ((processLine c2wline.data).getD dummyData) (by decide)).2.2 (by decide),
    by decide, by decide⟩

/-- C5: a bare-integer amount token (no decimal point) whose value
lies in the calendar-year window 1990–2030 is never the selected
transaction amount: the emitted amount always comes from the selected
candidate, and every candidate surviving the filter fails the
year-integer test. -/
theorem C5_year_tokens_never_selected :
    ∀ raw d, processLine raw = some d →
      d.amount = (chosenOf raw).val ∧
      chosenOf raw ∈ candidatesOf raw ∧
      ¬((chosenOf raw).str.contains '.' = false ∧
        isYear (chosenOf raw).val = true) := by
  intro raw d h
  obtain ⟨hne, hamt⟩ := processLine_some h
  have hc := chosenOf_mem hne
  refine ⟨hamt, hc, ?_⟩
  have hfil := (List.mem_filter.mp hc).2
  rintro ⟨hdot, hyr⟩
  simp only [candFilter] at hfil
  split at hfil
  · exact Bool.noConfusion hfil
  · rw [hdot, hyr] at hfil
    simp at hfil

/-- A line carrying a comma-grouped year-like integer `2,024` and a
decimal amount. -/
def c5line : String := "29/10/2024 2,024 150.00"

/-- Witness for C5: on `c5line` the token `2,024` (value 2024, no
decimal point) is matched as an amount candidate but filtered out;
the selected amount is `150.00`. -/
theorem C5_year_tokens_never_selected_witness :
    processLine c5line.data =
      some ((processLine c5line.data).getD dummyData) ∧
    (amountsOf c5line.data).map (fun c => c.val) = [2024, 150] ∧
    (candidatesOf c5line.data).map (fun c => c.val) = [150] ∧
    ¬((chosenOf c5line.data).str.contains '.' = false ∧
      isYear (chosenOf c5line.data).val = true) :=
  ⟨by decide, by decide, by decide,
    (C5_year_tokens_never_selected c5line.data
      ((processLine c5line.data).getD dummyData) (by decide)).2.2⟩

/-- The C6 failing input: the chosen candidate is the token `200` at
position 16 of the date-stripped line, but the same three characters
occur earlier inside the token `1,200` (position 4), so the 20-char
marker window is taken from the wrong place. -/
def c6line : String := "29/10/2024 1,200 cr 5.00 200 8.00 xx debit"

/-- C6 (evaluation at the failing input): the direction-inference
window is anchored at `indexOf(selectedCandidateStr)` — the FIRST
occurrence of the chosen token's text — not at the chosen token
itself. On `c6line` the window lands just after the `200` inside
`1,200`, sees the `cr` marker of the balance column, and yields
INCOME, although no marker follows the real chosen token within 20
characters and the whole-line keyword `debit` would yield EXPENSE. -/
theorem C6_window_uses_first_occurrence :
    (chosenOf c6line.data).str = "200".data ∧
    (chosenOf c6line.data).idx = 16 ∧
    indexOfSub (strippedOf c6line.data) "200".data = some 4 ∧
    containsStr (lowerList (jsSubstring (strippedOf c6line.data) 19 39))
      "dr" = false ∧
    containsStr (lowerList (jsSubstring (strippedOf c6line.data) 19 39))
      "cr" = false ∧
    containsStr (lowerList (trimList c6line.data)) "credit" = false ∧
    containsStr (lowerList (trimList c6line.data)) "deposit" = false ∧
    containsStr (lowerList (trimList c6line.data)) "debit" = true ∧
    (extractTransactionsFromText c6line ids0).map
      (fun t => (t.type, t.amount)) = [(.INCOME, 200)] :=
  ⟨by decide, by decide, by decide, by decide, by decide, by decide,
    by decide, by decide, by decide⟩

/-- A split-column row with a nonzero (but negative) debit cell and a
positive credit cell. -/
def rowNegDebit : List JsVal :=
  [.str "29/10/2024", .str "adj", .str "-100", .str "50"]

/-- C3 counterexample: the claim says a NONZERO debit yields an
EXPENSE with that magnitude; the code only accepts a POSITIVE debit.
On a row with debit `-100` (nonzero) and credit `50`, the code falls
through to the credit branch and emits INCOME 50, not EXPENSE 100. -/
theorem C3_counterexample :
    parseAmount (getJs rowNegDebit 2) = -100 ∧
    debitValOf (mkIdx hdrs0) rowNegDebit ≠ 0 ∧
    (extractFromStructuredRows [rowNegDebit] hdrs0 ids0).map
      (fun t => (t.type, t.amount)) = [(.INCOME, 50)] :=
  ⟨by decide, by decide, by decide⟩

/-- C3 (amended): in the structured-row extractor with resolved
debit/credit split columns, for every data row whose date resolves: a
POSITIVE debit value yields an EXPENSE transaction of that value;
otherwise a POSITIVE credit value yields an INCOME transaction of
that value; a row with neither positive yields no transaction.
(Concretely: debit 2500.00 / credit 0 gives one EXPENSE of 2500, and
debit 0 / credit 50000 gives one INCOME of 50000 — see the
witness.) -/
theorem C3_amended_split_columns :
    ∀ headers row di dateMs,
      ((mkIdx headers).debit.isSome || (mkIdx headers).credit.isSome) =
        true →
      (mkIdx headers).date = some di →
      (getJs row di).falsy = false →
      parseAnyDate (getJs row di) = some dateMs →
      (0 < debitValOf (mkIdx headers) row →
        ∃ d, processStructuredRow (mkIdx headers) row = some d ∧
          d.type = .EXPENSE ∧ d.amount = debitValOf (mkIdx headers) row) ∧
      (debitValOf (mkIdx headers) row ≤ 0 →
        0 < creditValOf (mkIdx headers) row →
        ∃ d, processStructuredRow (mkIdx headers) row = some d ∧
          d.type = .INCOME ∧ d.amount = creditValOf (mkIdx headers) row) ∧
      (debitValOf (mkIdx headers) row ≤ 0 →
        creditValOf (mkIdx headers) row ≤ 0 →
        processStructuredRow (mkIdx headers) row = none) := by
  intro headers row di dateMs hsplit hdate hfalsy hparse
  refine ⟨?_, ?_, ?_⟩
  · intro hdv
    refine ⟨{ amount := debitValOf (mkIdx headers) row,
              description := cleanDescription (descOf (mkIdx headers) row),
              category := detectCategory (descOf (mkIdx headers) row),
              type := .EXPENSE,
              paymentMethod := detectPaymentMethod (descOf (mkIdx headers) row),
              date := dateMs }, ?_, rfl, rfl⟩
    simp only [processStructuredRow, hdate, hfalsy, hparse,
      Bool.false_eq_true, if_false, rowAmountType, hsplit, if_true,
      if_pos hdv]
  · intro hdv hcv
    refine ⟨{ amount := creditValOf (mkIdx headers) row,
              description := cleanDescription (descOf (mkIdx headers) row),
              category := detectCategory (descOf (mkIdx headers) row),
              type := .INCOME,
              paymentMethod := detectPaymentMethod (descOf (mkIdx headers) row),
              date := dateMs }, ?_, rfl, rfl⟩
    simp only [processStructuredRow, hdate, hfalsy, hparse,
      Bool.false_eq_true, if_false, rowAmountType, hsplit, if_true,
      if_neg (not_lt.mpr hdv), if_pos hcv]
  · intro hdv hcv
    simp only [processStructuredRow, hdate, hfalsy, hparse,
      Bool.false_eq_true, if_false, rowAmountType, hsplit, if_true,
      if_neg (not_lt.mpr hdv), if_neg (not_lt.mpr hcv)]
    simp

/-- Witness for C3 (amended) at the two reference rows. -/
theorem C3_amended_split_columns_witness :
    debitValOf (mkIdx hdrs0) rowDebit0 = 2500 ∧
    (∃ d, processStructuredRow (mkIdx hdrs0) rowDebit0 = some d ∧
      d.type = .EXPENSE ∧ d.amount = debitValOf (mkIdx hdrs0) rowDebit0) ∧
    creditValOf (mkIdx hdrs0) rowCredit0 = 50000 ∧
    (∃ d, processStructuredRow (mkIdx hdrs0) rowCredit0 = some d ∧
      d.type = .INCOME ∧ d.amount = creditValOf (mkIdx hdrs0) rowCredit0) ∧
    (extractFromStructuredRows [rowDebit0, rowCredit0] hdrs0 ids0).map
      (fun t => (t.type, t.amount)) =
      [(.EXPENSE, 2500), (.INCOME, 50000)] :=
  ⟨by decide,
   (C3_amended_split_columns hdrs0 rowDebit0 0
      ((parseAnyDate (getJs rowDebit0 0)).getD 0)
      (by decide) (by decide) (by decide) (by decide)).1 (by decide),
   by decide,
   (C3_amended_split_columns hdrs0 rowCredit0 0
      ((parseAnyDate (getJs rowCredit0 0)).getD 0)
      (by decide) (by decide) (by decide) (by decide)).2.1
    (by decide) (by decide),
   by decide⟩

/-- Splitting a separator-free prefix off a split. -/
theorem splitOnAny_append_sep {p : Char → Bool} {sep : Char}
    (hsep : p sep = true) :
    ∀ (raw rest : List Char), (∀ c ∈ raw, p c = false) →
      splitOnAny p (raw ++ sep :: rest) = raw :: splitOnAny p rest := by
  intro raw
  induction raw with
  | nil =>
    intro rest h
    simp only [List.nil_append, splitOnAny, hsep, if_true]
  | cons c cs ih =>
    intro rest h
    have hc : p c = false := h c (List.mem_cons_self c cs)
    simp only [List.cons_append, splitOnAny, hc, Bool.false_eq_true,
      if_false]
    show (match splitOnAny p (cs ++ sep :: rest) with
      | [] => [[c]]
      | q :: qs => (c :: q) :: qs) = (c :: cs) :: splitOnAny p rest
    rw [ih rest (fun x hx => h x (List.mem_cons_of_mem _ hx))]

/-- The date cell of a structured row is missing (column unresolved or
cell falsy) or unparseable. -/
def dateUnresolved (idx : ColIdx) (row : List JsVal) : Prop :=
  match idx.date with
  | none => True
  | some di =>
    (getJs row di).falsy = true ∨ parseAnyDate (getJs row di) = none

/-- A text line has no date anchor, or its date token does not
parse. -/
def lineDateUnresolved (raw : List Char) : Prop :=
  firstDateMatch (trimList raw) = none ∨
  ∃ m, firstDateMatch (trimList raw) = some m ∧
    parseAnyDate (.str (String.mk m)) = none

theorem processStructuredRow_bad_date {idx : ColIdx} {row : List JsVal}
    (h : dateUnresolved idx row) : processStructuredRow idx row = none := by
  unfold dateUnresolved at h
  unfold processStructuredRow
  split
  · rfl
  · next di heq =>
    rw [heq] at h
    rcases h with h | h
    · simp [h]
    · simp [h]

theorem processLine_bad_date {raw : List Char}
    (h : lineDateUnresolved raw) : processLine raw = none := by
  simp only [processLine]
  rcases h with h | ⟨m, hm, hp⟩
  · split
    · rfl
    · simp [h]
  · split
    · rfl
    · simp [hm, hp]

/-- C9: a structured row whose date cell is missing or unparseable,
and a free-text line without a date anchor or with an unparseable
date token, yields no transaction and raises no error: the row/line
is skipped and the rest of the batch is still processed. -/
theorem C9_bad_dates_skipped_locally :
    (∀ headers row rows ids, dateUnresolved (mkIdx headers) row →
      processStructuredRow (mkIdx headers) row = none ∧
      extractFromStructuredRows (row :: rows) headers ids =
        extractFromStructuredRows rows headers ids) ∧
    (∀ (raw rest : List Char) ids,
      (∀ c ∈ raw, c ≠ '\n') → lineDateUnresolved raw →
      processLine raw = none ∧
      extractTransactionsFromText (String.mk (raw ++ '\n' :: rest)) ids =
        extractTransactionsFromText (String.mk rest) ids) := by
  constructor
  · intro headers row rows ids h
    have hnone := processStructuredRow_bad_date h
    refine ⟨hnone, ?_⟩
    unfold extractFromStructuredRows
    rw [List.filterMap_cons_none hnone]
  · intro raw rest ids hnl h
    have hnone := processLine_bad_date h
    refine ⟨hnone, ?_⟩
    unfold extractTransactionsFromText splitLines
    show withIds ids 0
      ((splitOnAny _ (raw ++ '\n' :: rest)).filterMap processLine) = _
    rw [splitOnAny_append_sep (by decide) raw rest
      (fun c hc => by simp [hnl c hc])]
    rw [List.filterMap_cons_none hnone]

def rowBadDate : List JsVal :=
  [.str "notadate", .str "memo", .str "5.00", .str "0"]

def badLine : List Char := "no date here 500.00".data

def goodLine : List Char := "29/10/2024 77.00 cr".data

/-- Witness for C9: a row with the unparseable date cell `notadate`
and a line without a date anchor are both dropped while the
neighbouring good row/line is still extracted. -/
theorem C9_bad_dates_skipped_locally_witness :
    (processStructuredRow (mkIdx hdrs0) rowBadDate = none ∧
      extractFromStructuredRows [rowBadDate, rowDebit0] hdrs0 ids0 =
        extractFromStructuredRows [rowDebit0] hdrs0 ids0) ∧
    (processLine badLine = none ∧
      extractTransactionsFromText (String.mk (badLine ++ '\n' :: goodLine))
          ids0 =
        extractTransactionsFromText (String.mk goodLine) ids0) ∧
    (extractFromStructuredRows [rowBadDate, rowDebit0] hdrs0 ids0).length =
      1 ∧
    (extractTransactionsFromText (String.mk (badLine ++ '\n' :: goodLine))
      ids0).length = 1 :=
  ⟨C9_bad_dates_skipped_locally.1 hdrs0 rowBadDate [rowDebit0] ids0
      (Or.inr (by decide)),
   C9_bad_dates_skipped_locally.2 badLine goodLine ids0 (by decide)
      (Or.inl (by decide)),
   by decide, by decide⟩

/-! ## The header-detection invariant (C4) -/

/-- What the header-detection accumulator satisfies after the first
`iEnd` rows have been scanned, with `f`/`g` giving the score and
normalized form of each scanned row: either nothing is retained and
every scanned row scored below the threshold 2, or the retained row
was scanned, reached the threshold, strictly beat every earlier row,
and no later scanned row beat it. -/
def HdrInv (f : Nat → ℚ) (g : Nat → List String) (iEnd : Nat) :
    Option (Nat × List String × ℚ) → Prop
  | none => ∀ k, k < iEnd → f k < 2
  | some (j, h, b) => j < iEnd ∧ h = g j ∧ b = f j ∧ 2 ≤ b ∧
      (∀ k, k < j → f k < b) ∧ (∀ k, j ≤ k → k < iEnd → f k ≤ b)

theorem HdrInv_step {f : Nat → ℚ} {g : Nat → List String} {i : Nat}
    (acc : Option (Nat × List String × ℚ)) (row : List JsVal)
    (hf : f i = rowScore row) (hg : g i = normRow row)
    (hacc : HdrInv f g i acc) :
    HdrInv f g (i + 1)
      (if accBest acc < scoreHeaderRow (normRow row) &&
          2 ≤ scoreHeaderRow (normRow row)
        then some (i, normRow row, scoreHeaderRow (normRow row))
        else acc) := by
  have hfs : f i = scoreHeaderRow (normRow row) := hf
  by_cases hsel : accBest acc < scoreHeaderRow (normRow row) ∧
      2 ≤ scoreHeaderRow (normRow row)
  · rw [if_pos (by simp [hsel.1, hsel.2])]
    refine ⟨Nat.lt_succ_self i, hg.symm, hfs.symm, hsel.2, ?_, ?_⟩
    · intro k hk
      cases acc with
      | none =>
        have h2 := hacc k hk
        calc f k < 2 := h2
          _ ≤ _ := hsel.2
      | some trip =>
        obtain ⟨j0, h0, b0⟩ := trip
        obtain ⟨hj0, _, hb0, h2b, hlt, hle⟩ := hacc
        have hbs : b0 < scoreHeaderRow (normRow row) := hsel.1
        rcases Nat.lt_trichotomy k j0 with hkj | hkj | hkj
        · exact lt_trans (hlt k hkj) hbs
        · subst hkj; exact hb0 ▸ hbs
        · exact lt_of_le_of_lt (hle k (Nat.le_of_lt hkj) hk) hbs
    · intro k hik hk1
      have hki : k = i := by omega
      subst hki
      exact le_of_eq hfs
  · rw [if_neg (by
      intro hb
      simp only [Bool.and_eq_true, decide_eq_true_eq] at hb
      exact hsel hb)]
    cases acc with
    | none =>
      intro k hk
      rcases Nat.lt_succ_iff_lt_or_eq.mp hk with hk | hk
      · exact hacc k hk
      · subst hk
        rw [hfs]
        by_contra hge
        push_neg at hge
        exact hsel ⟨lt_of_lt_of_le (by simp only [accBest]; norm_num) hge,
          hge⟩
    | some trip =>
      obtain ⟨j0, h0, b0⟩ := trip
      obtain ⟨hj0, hh0, hb0, h2b, hlt, hle⟩ := hacc
      refine ⟨Nat.lt_succ_of_lt hj0, hh0, hb0, h2b, hlt, ?_⟩
      intro k hjk hk1
      rcases Nat.lt_succ_iff_lt_or_eq.mp hk1 with hk | hk
      · exact hle k hjk hk
      · subst hk
        rw [hfs]
        by_cases hsb : scoreHeaderRow (normRow row) ≤ b0
        · exact hsb
        · push_neg at hsb
          by_cases h2s : 2 ≤ scoreHeaderRow (normRow row)
          · exact absurd ⟨hsb, h2s⟩ hsel
          · push_neg at h2s
            exact le_trans (le_of_lt h2s) h2b

theorem detectHeaderAux_inv (f : Nat → ℚ) (g : Nat → List String) :
    ∀ (rest : List (List JsVal)) (i : Nat)
      (acc : Option (Nat × List String × ℚ)),
      i ≤ 100 →
      (∀ k r, rest.get? k = some r →
        f (i + k) = rowScore r ∧ g (i + k) = normRow r) →
      HdrInv f g i acc →
      HdrInv f g (min (i + rest.length) 100)
        (detectHeaderAux i rest acc) := by
  intro rest
  induction rest with
  | nil =>
    intro i acc hi hrest hacc
    have : min (i + ([] : List (List JsVal)).length) 100 = i := by
      simp; omega
    rw [this, detectHeaderAux]
    exact hacc
  | cons row rs ih =>
    intro i acc hi hrest hacc
    rw [detectHeaderAux]
    by_cases hi100 : i < 100
    · rw [if_pos hi100]
      have hrow := hrest 0 row rfl
      have hstep := HdrInv_step acc row
        (by simpa using hrow.1) (by simpa using hrow.2) hacc
      have hrest' : ∀ k r, rs.get? k = some r →
          f ((i + 1) + k) = rowScore r ∧ g ((i + 1) + k) = normRow r := by
        intro k r hk
        have := hrest (k + 1) r (by simpa using hk)
        constructor
        · rw [show (i + 1) + k = i + (k + 1) from by omega]
          exact this.1
        · rw [show (i + 1) + k = i + (k + 1) from by omega]
          exact this.2
      have := ih (i + 1) _ (by omega) hrest' hstep
      rw [show min (i + (row :: rs).length) 100 =
          min ((i + 1) + rs.length) 100 from by
        simp [List.length_cons]; omega]
      exact this
    · rw [if_neg hi100]
      have hieq : i = 100 := by omega
      subst hieq
      have : min (100 + (row :: rs).length) 100 = 100 := by omega
      rw [this]
      exact hacc

/-- Scanning stops after 100 rows: the loop result only depends on
the first 100 rows. -/
theorem detectHeaderAux_take :
    ∀ (rest : List (List JsVal)) (i : Nat)
      (acc : Option (Nat × List String × ℚ)),
      detectHeaderAux i rest acc =
        detectHeaderAux i (rest.take (100 - i)) acc := by
  intro rest
  induction rest with
  | nil => intro i acc; rw [List.take_nil]
  | cons row rs ih =>
    intro i acc
    by_cases hi : i < 100
    · rw [show 100 - i = (100 - (i + 1)) + 1 from by omega,
        List.take_succ_cons, detectHeaderAux, detectHeaderAux,
        if_pos hi, if_pos hi]
      exact ih (i + 1) _
    · rw [show 100 - i = 0 from by omega, List.take_zero]
      conv_lhs => rw [detectHeaderAux]
      rw [if_neg hi]
      rfl

/-- C4: schema detection scans at most the first 100 rows (the result
only depends on them); it selects only a row whose header-signature
score reaches the threshold 2 and strictly exceeds the score of every
earlier scanned row (hence of every previously retained one); and
when no scanned row reaches 2 no header is selected and extraction
falls through to the free-text path over the row-joined text. -/
theorem C4_header_detection :
    (∀ rows, detectHeader rows = detectHeader (rows.take 100)) ∧
    (∀ rows j hs sc, detectHeader rows = some (j, hs, sc) →
      j < min rows.length 100 ∧ 2 ≤ sc ∧
      (∀ row, rows.get? j = some row → hs = normRow row ∧
        sc = rowScore row) ∧
      (∀ k row, k < j → rows.get? k = some row → rowScore row < sc)) ∧
    (∀ rows ids,
      (∀ k row, k < 100 → rows.get? k = some row → rowScore row < 2) →
      parseSpreadsheetRows rows ids =
        extractTransactionsFromText (joinRows rows) ids) := by
  have hmain : ∀ rows : List (List JsVal),
      HdrInv (fun k => rowScore ((rows.get? k).getD []))
        (fun k => normRow ((rows.get? k).getD []))
        (min rows.length 100) (detectHeader rows) := by
    intro rows
    have h0 : HdrInv (fun k => rowScore ((rows.get? k).getD []))
        (fun k => normRow ((rows.get? k).getD [])) 0 none := by
      intro k hk
      omega
    have := detectHeaderAux_inv
      (fun k => rowScore ((rows.get? k).getD []))
      (fun k => normRow ((rows.get? k).getD []))
      rows 0 none (by omega)
      (fun k r hk => by
        have hk' : rows[k]? = some r := by
          rw [← List.get?_eq_getElem?]
          exact hk
        constructor <;> simp [hk']) h0
    simpa using this
  refine ⟨?_, ?_, ?_⟩
  · intro rows
    unfold detectHeader
    rw [detectHeaderAux_take rows 0 none]
  · intro rows j hs sc hdet
    have h := hmain rows
    rw [hdet] at h
    obtain ⟨hj, hhs, hsc, h2, hlt, _⟩ := h
    simp only [] at hhs hsc hlt
    refine ⟨hj, h2, ?_, ?_⟩
    · intro row hrow
      rw [hrow] at hhs hsc
      simp only [Option.getD_some] at hhs hsc
      exact ⟨hhs, hsc⟩
    · intro k row hk hget
      have hlt' := hlt k hk
      rw [hget] at hlt'
      simpa using hlt'
  · intro rows ids hlow
    have h := hmain rows
    unfold parseSpreadsheetRows
    rcases hdet : detectHeader rows with _ | trip
    · rfl
    · exfalso
      obtain ⟨j, hs, sc⟩ := trip
      rw [hdet] at h
      obtain ⟨hj, _, hsc, h2, _, _⟩ := h
      have hjlen : j < rows.length := lt_of_lt_of_le hj (min_le_left _ _)
      have hj100 : j < 100 := lt_of_lt_of_le hj (min_le_right _ _)
      have hrow : rows.get? j = some (rows.get ⟨j, hjlen⟩) :=
        List.get?_eq_get hjlen
      have hlow2 := hlow j (rows.get ⟨j, hjlen⟩) hj100 hrow
      simp only [] at hsc
      rw [hrow] at hsc
      simp only [Option.getD_some] at hsc
      rw [hsc] at h2
      linarith

/-- Tabular data with a silent first row and a genuine header in the
second row. -/
def hdrRows : List (List JsVal) :=
  [[.str "Account Statement"],
   [.str "Date", .str "Narration", .str "Withdrawal Amt.",
    .str "Deposit Amt.", .str "Balance"]]

/-- Tabular data none of whose rows carries a header signature. -/
def lowRows : List (List JsVal) :=
  [[.str "hello"], [.str "world 123"]]

/-- Witness for C4: on `hdrRows` the second row (score 5.5) is
selected; on `lowRows` (all scores below 2) no header is selected and
the free-text fallback runs over the joined rows. -/
theorem C4_header_detection_witness :
    detectHeader hdrRows =
      some (1, normRow (hdrRows.getD 1 []), rowScore (hdrRows.getD 1 [])) ∧
    (1 < min hdrRows.length 100 ∧ 2 ≤ rowScore (hdrRows.getD 1 []) ∧
      (∀ row, hdrRows.get? 1 = some row →
        normRow (hdrRows.getD 1 []) = normRow row ∧
        rowScore (hdrRows.getD 1 []) = rowScore row) ∧
      (∀ k row, k < 1 → hdrRows.get? k = some row →
        rowScore row < rowScore (hdrRows.getD 1 []))) ∧
    parseSpreadsheetRows lowRows ids0 =
      extractTransactionsFromText (joinRows lowRows) ids0 :=
  ⟨by decide,
   C4_header_detection.2.1 hdrRows 1 (normRow (hdrRows.getD 1 []))
     (rowScore (hdrRows.getD 1 [])) (by decide),
   C4_header_detection.2.2 lowRows ids0 (by
     intro k row hk hget
     have hk2 : k < 2 := by
       by_contra hge
       push_neg at hge
       rw [List.get?_eq_none.mpr (by simpa using hge)] at hget
       exact Option.noConfusion hget
     interval_cases k
     · cases hget
       decide
     · cases hget
       decide)⟩

end Fintrack
